import Mathlib

/-!
Shallow embedding of the CPU-side simulation layer of `src/main.cpp`
(black-hole visualizer): orbit camera, gravity integrator, curvature
grid mesh, and the compute-dispatch resolution/packing logic.
`float`/`double` arithmetic is modelled over `ℝ`; C++ `int` over `ℤ`/`ℕ`.
-/

namespace BlackHole

noncomputable section

/-- Speed of light, from `constexpr double C = 299'792'458.0`. -/
def C : ℝ := 299792458

/-- Gravitational constant, from `constexpr double G = 6.674'30e-11`. -/
def G : ℝ := 6.6743e-11

/-- Embedding of `glm::vec3` over the reals. -/
structure Vec3 where
  x : ℝ
  y : ℝ
  z : ℝ

/-- Embedding of `glm::vec4` over the reals. -/
structure Vec4 where
  x : ℝ
  y : ℝ
  z : ℝ
  w : ℝ

instance : Zero Vec3 := ⟨⟨0, 0, 0⟩⟩

instance : Add Vec3 := ⟨fun a b => ⟨a.x + b.x, a.y + b.y, a.z + b.z⟩⟩

instance : Sub Vec3 := ⟨fun a b => ⟨a.x - b.x, a.y - b.y, a.z - b.z⟩⟩

instance : SMul ℝ Vec3 := ⟨fun c v => ⟨c * v.x, c * v.y, c * v.z⟩⟩

/-- `glm::length`: Euclidean norm of a `vec3`. -/
def Vec3.length (v : Vec3) : ℝ := Real.sqrt (v.x * v.x + v.y * v.y + v.z * v.z)

/-- Embedding of `struct ObjectData` (position+radius, color, mass, velocity). -/
structure ObjectData where
  posRadius : Vec4
  color : Vec4
  mass : ℝ
  velocity : Vec3

instance : Inhabited ObjectData := ⟨⟨⟨0, 0, 0, 0⟩, ⟨0, 0, 0, 0⟩, 0, ⟨0, 0, 0⟩⟩⟩

/-- `vec3(obj.posRadius)`: the spatial part of an object's `posRadius`. -/
def ObjectData.pos (o : ObjectData) : Vec3 := ⟨o.posRadius.x, o.posRadius.y, o.posRadius.z⟩

/-- One inner-loop iteration of the gravity simulation in `main`:
the acceleration contribution of `other` on `self`
(`direction * float(force / obj.mass)` guarded by `distance > 0`). -/
def accContribution (self other : ObjectData) : Vec3 :=
  let delta := other.pos - self.pos
  let dist := delta.length
  if 0 < dist then
    ((G * self.mass * other.mass / (dist * dist)) / self.mass) • ((1 / dist) • delta)
  else 0

/-- The `totalAcc` accumulated for the body at index `i` (the inner
`for (const auto& obj2 : objects)` loop with the `&obj == &obj2` skip),
reading the current, partially updated object list. -/
def totalAcc (objs : List ObjectData) (i : ℕ) (self : ObjectData) : Vec3 :=
  ((List.range objs.length).filter (fun j => j != i)).foldl
    (fun acc j => acc + accContribution self (objs.getD j default)) 0

/-- `obj.velocity += totalAcc; obj.posRadius += vec4(obj.velocity, 0.0f)`. -/
def applyAcc (o : ObjectData) (acc : Vec3) : ObjectData :=
  let v := o.velocity + acc
  { o with
    velocity := v
    posRadius := ⟨o.posRadius.x + v.x, o.posRadius.y + v.y, o.posRadius.z + v.z, o.posRadius.w⟩ }

/-- Update of the body at index `i` inside the gravity loop; leaves the list
unchanged when `i` is out of range. -/
def stepAt (objs : List ObjectData) (i : ℕ) : List ObjectData :=
  match objs[i]? with
  | none => objs
  | some o => objs.set i (applyAcc o (totalAcc objs i o))

/-- One full pass of the gravity simulation (`for (auto& obj : objects)`),
updating bodies in place, in order. -/
def gravityStep (objs : List ObjectData) : List ObjectData :=
  (List.range objs.length).foldl stepAt objs

/-- Per-frame effect of the main loop on the body list: the integrator runs
only when the global gravity flag is set. -/
def frameBodies (gravity : Bool) (objs : List ObjectData) : List ObjectData :=
  if gravity then gravityStep objs else objs

/-- Sagittarius A* mass, from `BlackHole SagA(vec3(0.0f), 8.54e36)`. -/
def SagA_mass : ℝ := 8.54e36

/-- `r_s = 2.0 * G * mass / (C * C)` computed in the `BlackHole` constructor. -/
def SagA_rs : ℝ := 2 * G * SagA_mass / (C * C)

/-- First entry of the global `objects` vector (yellow body). -/
def body0 : ObjectData := ⟨⟨4e11, 0, 0, 4e10⟩, ⟨1, 1, 0, 1⟩, 1.98892e30, ⟨0, 0, 0⟩⟩

/-- Second entry of the global `objects` vector (red body). -/
def body1 : ObjectData := ⟨⟨0, 0, 4e11, 4e10⟩, ⟨1, 0, 0, 1⟩, 1.98892e30, ⟨0, 0, 0⟩⟩

/-- Third entry of the global `objects` vector: the central attractor at the
origin with the mass (and Schwarzschild radius) of Sagittarius A*. -/
def attractor : ObjectData := ⟨⟨0, 0, 0, SagA_rs⟩, ⟨0, 0, 0, 1⟩, SagA_mass, ⟨0, 0, 0⟩⟩

/-- The initial global `objects` vector. -/
def objects0 : List ObjectData := [body0, body1, attractor]

/-- A body of mass `m` at `(px, 0, 0)` with zero velocity, used to set up
symmetric two-body scenarios. -/
def xBody (px m : ℝ) : ObjectData := ⟨⟨px, 0, 0, 1e10⟩, ⟨1, 1, 1, 1⟩, m, ⟨0, 0, 0⟩⟩

/-! ### Camera -/

/-- `PI` from the source (modelled by the real number). -/
def PI : ℝ := Real.pi

/-- `std::clamp` / `glm::clamp` on reals (for `lo ≤ hi`). -/
def clampf (v lo hi : ℝ) : ℝ := min (max v lo) hi

def GLFW_MOUSE_BUTTON_LEFT : ℕ := 0

def GLFW_MOUSE_BUTTON_RIGHT : ℕ := 1

def GLFW_MOUSE_BUTTON_MIDDLE : ℕ := 2

def GLFW_RELEASE : ℕ := 0

def GLFW_PRESS : ℕ := 1

def GLFW_KEY_G : ℕ := 71

/-- Embedding of `struct Camera` (the fixed `target` is the origin). -/
structure Camera where
  radius : ℝ
  minRadius : ℝ
  maxRadius : ℝ
  azimuth : ℝ
  elevation : ℝ
  orbitSpeed : ℝ
  panSpeed : ℝ
  zoomSpeed : ℝ
  dragging : Bool
  panning : Bool
  moving : Bool
  lastX : ℝ
  lastY : ℝ

/-- The camera's initial state (the field initializers of `struct Camera`). -/
def initCamera : Camera :=
  { radius := 1.38e11, minRadius := 1e10, maxRadius := 1e12
    azimuth := -2.35, elevation := 1.5
    orbitSpeed := 0.01, panSpeed := 0.01, zoomSpeed := 25e9
    dragging := false, panning := false, moving := false
    lastX := 0, lastY := 0 }

/-- `Camera::update`: recompute the derived `moving` flag. -/
def Camera.update (c : Camera) : Camera := { c with moving := c.dragging || c.panning }

/-- `Camera::position`: spherical position around the origin with the
elevation defensively clamped. -/
def Camera.position (c : Camera) : Vec3 :=
  let clampedElevation := clampf c.elevation 0.01 (PI - 0.01)
  ⟨c.radius * Real.sin clampedElevation * Real.cos c.azimuth,
   c.radius * Real.cos clampedElevation,
   c.radius * Real.sin clampedElevation * Real.sin c.azimuth⟩

/-- `Camera::processMouseMove`. -/
def Camera.processMouseMove (c : Camera) (x y : ℝ) : Camera :=
  let dx := x - c.lastX
  let dy := y - c.lastY
  let c1 :=
    if c.dragging && c.panning then
      c
    else if c.dragging && !c.panning then
      { c with
        azimuth := c.azimuth + dx * c.orbitSpeed
        elevation := clampf (c.elevation - dy * c.orbitSpeed) 0.01 (PI - 0.01) }
    else c
  Camera.update { c1 with lastX := x, lastY := y }

/-- `Camera::processScroll`. -/
def Camera.processScroll (c : Camera) (xoffset yoffset : ℝ) : Camera :=
  Camera.update
    { c with radius := clampf (c.radius - yoffset * c.zoomSpeed) c.minRadius c.maxRadius }

/-- Camera state together with the global `g_gravity` flag. -/
structure SimState where
  cam : Camera
  gravity : Bool

/-- `Camera::processMouseButton` (it also writes the global `g_gravity`;
`cursorX`/`cursorY` stand for the `glfwGetCursorPos` result). -/
def processMouseButton (s : SimState) (button action : ℕ) (cursorX cursorY : ℝ) : SimState :=
  let c := s.cam
  let c1 :=
    if button = GLFW_MOUSE_BUTTON_LEFT ∨ button = GLFW_MOUSE_BUTTON_MIDDLE then
      if action = GLFW_PRESS then
        { c with dragging := true, panning := false, lastX := cursorX, lastY := cursorY }
      else if action = GLFW_RELEASE then
        { c with dragging := false, panning := false }
      else c
    else c
  let g :=
    if button = GLFW_MOUSE_BUTTON_RIGHT then
      if action = GLFW_PRESS then true
      else if action = GLFW_RELEASE then false
      else s.gravity
    else s.gravity
  ⟨c1, g⟩

/-- `Camera::processKey`: a G-key press toggles the global `g_gravity`. -/
def processKey (s : SimState) (key scancode action mods : ℕ) : SimState :=
  if action = GLFW_PRESS ∧ key = GLFW_KEY_G then { s with gravity := !s.gravity } else s

/-- The camera's inbound event surface (the four GLFW callbacks). -/
inductive InputEvent where
  | mouseMove (x y : ℝ)
  | mouseButton (button action : ℕ) (cursorX cursorY : ℝ)
  | scroll (xoffset yoffset : ℝ)
  | key (k scancode action mods : ℕ)

/-- Dispatch of one input event to the matching handler. -/
def stepEvent (s : SimState) : InputEvent → SimState
  | .mouseMove x y => ⟨s.cam.processMouseMove x y, s.gravity⟩
  | .mouseButton b a cx cy => processMouseButton s b a cx cy
  | .scroll xo yo => ⟨s.cam.processScroll xo yo, s.gravity⟩
  | .key k sc a m => processKey s k sc a m

/-- The initial program state: default camera, `g_gravity = false`. -/
def initState : SimState := ⟨initCamera, false⟩

/-- State reached after a sequence of input events from startup. -/
def runEvents (es : List InputEvent) : SimState := es.foldl stepEvent initState

/-- Camera state invariant maintained by every input handler: clamped
elevation, positive radius, untouched radius bounds. -/
def CamInv (c : Camera) : Prop :=
  0.01 ≤ c.elevation ∧ c.elevation ≤ PI - 0.01 ∧ 0 < c.radius ∧
  c.minRadius = 1e10 ∧ c.maxRadius = 1e12

/-! ### Compute dispatch -/

/-- `Engine::COMPUTE_WIDTH`. -/
def COMPUTE_WIDTH : ℤ := 200

/-- `Engine::COMPUTE_HEIGHT`. -/
def COMPUTE_HEIGHT : ℤ := 150

/-- The target compute resolution selected per frame in
`Engine::dispatchCompute`:
`cw = cam.moving ? COMPUTE_WIDTH : 200; ch = cam.moving ? COMPUTE_HEIGHT : 150`. -/
def computeResolution (moving : Bool) : ℤ × ℤ :=
  (if moving then COMPUTE_WIDTH else 200, if moving then COMPUTE_HEIGHT else 150)

/-! ### Object buffer packing -/

/-- The data of one packed UBO slot: `posRadius`, `color`, `mass`. -/
def packEntry (o : ObjectData) : Vec4 × Vec4 × ℝ := (o.posRadius, o.color, o.mass)

/-- `Engine::uploadObjectsUBO`: the count field
(`min(objs.size(), size_t{16})`) and the slots actually written
(the loop `for (size_t i = 0; i < count; ++i)`). -/
def uploadObjectsUBO (objs : List ObjectData) : ℕ × List (Vec4 × Vec4 × ℝ) :=
  let count := min objs.length 16
  (count, (List.range count).map (fun i => packEntry (objs.getD i default)))

/-! ### Curvature grid mesh -/

/-- `constexpr int gridSize = 25`. -/
def gridSize : ℤ := 25

/-- `constexpr float spacing = 1e10f`. -/
def spacing : ℝ := 1e10

/-- World coordinate of grid index `k`: `(k - gridSize / 2) * spacing`
(C++ integer division: `25 / 2 = 12`). -/
def worldCoord (k : ℤ) : ℝ := ((k - gridSize / 2 : ℤ) : ℝ) * spacing

/-- Schwarzschild radius recomputed per body in `Engine::generateGrid`:
`2.0 * G * obj.mass / (C * C)`. -/
def bodyRs (mass : ℝ) : ℝ := 2 * G * mass / (C * C)

/-- One body's displacement contribution at planar distance `dist`
(the `if (dist > r_s)` branch of `generateGrid`, offset included). -/
def dispContribution (rs dist : ℝ) : ℝ :=
  if rs < dist then 2 * Real.sqrt (rs * (dist - rs)) - 3e10
  else 2 * Real.sqrt (rs * rs) - 3e10

/-- The grid vertex for indices `(x, z)`: planar coordinates on the fixed
lattice, vertical offset summed over all bodies. -/
def vertexAt (objs : List ObjectData) (x z : ℤ) : Vec3 :=
  let worldX := worldCoord x
  let worldZ := worldCoord z
  ⟨worldX,
   objs.foldl
     (fun y o =>
       y + dispContribution (bodyRs o.mass)
         (Real.sqrt ((worldX - o.posRadius.x) * (worldX - o.posRadius.x) +
           (worldZ - o.posRadius.z) * (worldZ - o.posRadius.z)))) 0,
   worldZ⟩

/-- The vertex list built by `generateGrid` (outer loop `z`, inner loop `x`,
both from `0` to `gridSize` inclusive). -/
def gridVertices (objs : List ObjectData) : List Vec3 :=
  (List.range (gridSize.toNat + 1)).flatMap fun z =>
    (List.range (gridSize.toNat + 1)).map fun x =>
      vertexAt objs (Int.ofNat x) (Int.ofNat z)

/-- The index list built by `generateGrid` for `GL_LINES` rendering:
per cell `(z, x)` with `i = z * (gridSize + 1) + x` it pushes
`i, i + 1, i, i + gridSize + 1`. -/
def gridIndices : List ℕ :=
  (List.range gridSize.toNat).flatMap fun z =>
    (List.range gridSize.toNat).flatMap fun x =>
      [z * (gridSize.toNat + 1) + x,
       z * (gridSize.toNat + 1) + x + 1,
       z * (gridSize.toNat + 1) + x,
       z * (gridSize.toNat + 1) + x + (gridSize.toNat + 1)]

/-- The same index stream, grouped into the line segments consumed by
`GL_LINES` (consecutive pairs). -/
def gridSegments : List (ℕ × ℕ) :=
  (List.range gridSize.toNat).flatMap fun z =>
    (List.range gridSize.toNat).flatMap fun x =>
      [(z * (gridSize.toNat + 1) + x, z * (gridSize.toNat + 1) + x + 1),
       (z * (gridSize.toNat + 1) + x, z * (gridSize.toNat + 1) + x + (gridSize.toNat + 1))]

/-! ### Componentwise simp lemmas for the vector embedding -/

@[simp] lemma Vec3.add_x (a b : Vec3) : (a + b).x = a.x + b.x := rfl

@[simp] lemma Vec3.add_y (a b : Vec3) : (a + b).y = a.y + b.y := rfl

@[simp] lemma Vec3.add_z (a b : Vec3) : (a + b).z = a.z + b.z := rfl

@[simp] lemma Vec3.sub_x (a b : Vec3) : (a - b).x = a.x - b.x := rfl

@[simp] lemma Vec3.sub_y (a b : Vec3) : (a - b).y = a.y - b.y := rfl

@[simp] lemma Vec3.sub_z (a b : Vec3) : (a - b).z = a.z - b.z := rfl

@[simp] lemma Vec3.smul_x (c : ℝ) (v : Vec3) : (c • v).x = c * v.x := rfl

@[simp] lemma Vec3.smul_y (c : ℝ) (v : Vec3) : (c • v).y = c * v.y := rfl

@[simp] lemma Vec3.smul_z (c : ℝ) (v : Vec3) : (c • v).z = c * v.z := rfl

@[simp] lemma Vec3.zero_x : (0 : Vec3).x = 0 := rfl

@[simp] lemma Vec3.zero_y : (0 : Vec3).y = 0 := rfl

@[simp] lemma Vec3.zero_z : (0 : Vec3).z = 0 := rfl

lemma Vec3.ext_iff (a b : Vec3) : a = b ↔ a.x = b.x ∧ a.y = b.y ∧ a.z = b.z := by
  constructor
  · intro h; subst h; exact ⟨rfl, rfl, rfl⟩
  · rintro ⟨hx, hy, hz⟩; cases a; cases b; simp_all

/-! ### Claim C1: compute-dispatch resolution selection -/

/-- Claim C1 (code evaluation at the failing input): the resolution selected
by `dispatchCompute` is `(200, 150)` for `moving = true` and `moving = false`
alike, and both pairs equal `(COMPUTE_WIDTH, COMPUTE_HEIGHT)`; the ternary on
`cam.moving` is a no-op, so no strictly smaller reduced pair is ever selected
while the camera moves. -/
theorem resolution_selection_constant :
    computeResolution true = (COMPUTE_WIDTH, COMPUTE_HEIGHT) ∧
    computeResolution false = (COMPUTE_WIDTH, COMPUTE_HEIGHT) ∧
    COMPUTE_WIDTH = 200 ∧ COMPUTE_HEIGHT = 150 := by
  refine ⟨rfl, ?_, rfl, rfl⟩
  simp [computeResolution, COMPUTE_WIDTH, COMPUTE_HEIGHT]

/-! ### Claim C4: the derived `moving` flag -/

/-- Claim C4 counterexample: after the single input event
left-mouse-button-press from the initial state, `dragging` is set but
`moving` was not recomputed, so `moving ≠ (dragging || panning)`. -/
theorem moving_flag_stale_counterexample :
    ¬ ((stepEvent initState (.mouseButton GLFW_MOUSE_BUTTON_LEFT GLFW_PRESS 0 0)).cam.moving =
      ((stepEvent initState (.mouseButton GLFW_MOUSE_BUTTON_LEFT GLFW_PRESS 0 0)).cam.dragging ||
       (stepEvent initState (.mouseButton GLFW_MOUSE_BUTTON_LEFT GLFW_PRESS 0 0)).cam.panning)) := by
  simp [stepEvent, processMouseButton, initState, initCamera,
    GLFW_MOUSE_BUTTON_LEFT, GLFW_MOUSE_BUTTON_MIDDLE, GLFW_MOUSE_BUTTON_RIGHT, GLFW_PRESS,
    GLFW_RELEASE]

/-- Claim C4 amended: only `processMouseMove` and `processScroll` recompute
`moving = dragging || panning` as their final step; `processMouseButton` and
`processKey` never touch `moving`, so it can be stale until the next
mouse-move or scroll event. -/
theorem moving_flag_recomputation :
    (∀ (c : Camera) (x y : ℝ),
      (c.processMouseMove x y).moving =
        ((c.processMouseMove x y).dragging || (c.processMouseMove x y).panning)) ∧
    (∀ (c : Camera) (xo yo : ℝ),
      (c.processScroll xo yo).moving =
        ((c.processScroll xo yo).dragging || (c.processScroll xo yo).panning)) ∧
    (∀ (s : SimState) (b a : ℕ) (cx cy : ℝ),
      (processMouseButton s b a cx cy).cam.moving = s.cam.moving) ∧
    (∀ (s : SimState) (k sc a m : ℕ), (processKey s k sc a m).cam.moving = s.cam.moving) := by
  refine ⟨?_, ?_, ?_, ?_⟩
  · intro c x y
    unfold Camera.processMouseMove
    split
    · rfl
    · split <;> rfl
  · intro c xo yo; rfl
  · intro s b a cx cy
    unfold processMouseButton
    split
    · split
      · rfl
      · split <;> rfl
    · rfl
  · intro s k sc a m
    unfold processKey
    split <;> rfl

/-! ### Claim C5: gravity-flag input semantics -/

/-- Claim C5 counterexample: with the gravity flag already on (turned on by a
G-key press), a right-button press leaves it on instead of toggling it off. -/
theorem gravity_right_press_no_toggle_counterexample :
    ¬ ((stepEvent (stepEvent initState (.key GLFW_KEY_G 0 GLFW_PRESS 0))
          (.mouseButton GLFW_MOUSE_BUTTON_RIGHT GLFW_PRESS 0 0)).gravity =
        !(stepEvent initState (.key GLFW_KEY_G 0 GLFW_PRESS 0)).gravity) := by
  simp [stepEvent, processMouseButton, processKey, initState,
    GLFW_MOUSE_BUTTON_LEFT, GLFW_MOUSE_BUTTON_MIDDLE, GLFW_MOUSE_BUTTON_RIGHT,
    GLFW_PRESS, GLFW_RELEASE, GLFW_KEY_G]

/-- Claim C5 amended: the right mouse button is momentary, not a toggle — a
press sets the gravity flag to `true` and a release sets it to `false`,
regardless of its previous value; a G-key press does toggle it. -/
theorem gravity_flag_semantics :
    (∀ (s : SimState) (cx cy : ℝ),
      (processMouseButton s GLFW_MOUSE_BUTTON_RIGHT GLFW_PRESS cx cy).gravity = true) ∧
    (∀ (s : SimState) (cx cy : ℝ),
      (processMouseButton s GLFW_MOUSE_BUTTON_RIGHT GLFW_RELEASE cx cy).gravity = false) ∧
    (∀ (s : SimState) (sc m : ℕ),
      (processKey s GLFW_KEY_G sc GLFW_PRESS m).gravity = !s.gravity) := by
  refine ⟨?_, ?_, ?_⟩
  · intro s cx cy
    simp [processMouseButton, GLFW_MOUSE_BUTTON_RIGHT, GLFW_PRESS, GLFW_RELEASE]
  · intro s cx cy
    simp [processMouseButton, GLFW_MOUSE_BUTTON_RIGHT, GLFW_PRESS, GLFW_RELEASE]
  · intro s sc m
    simp [processKey, GLFW_KEY_G, GLFW_PRESS]

/-! ### Claim C6: object buffer packing and CPU-side integration -/

lemma stepAt_length (objs : List ObjectData) (i : ℕ) : (stepAt objs i).length = objs.length := by
  unfold stepAt
  cases h : objs[i]? <;> simp

lemma foldl_stepAt_length (l : List ℕ) (objs : List ObjectData) :
    (l.foldl stepAt objs).length = objs.length := by
  induction l generalizing objs with
  | nil => rfl
  | cons j t ih => rw [List.foldl_cons, ih, stepAt_length]

lemma gravityStep_length (objs : List ObjectData) :
    (gravityStep objs).length = objs.length := foldl_stepAt_length _ _

lemma range_map_getD_eq_take_map {β : Type} (f : ObjectData → β) (objs : List ObjectData)
    (k : ℕ) (hk : k ≤ objs.length) :
    (List.range k).map (fun i => f (objs.getD i default)) = (objs.take k).map f := by
  apply List.ext_getElem?
  intro n
  by_cases hn : n < k
  · have hnl : n < objs.length := lt_of_lt_of_le hn hk
    rw [List.getElem?_map, List.getElem?_map, List.getElem?_range hn,
      List.getElem?_take_of_lt hn, List.getElem?_eq_getElem hnl]
    simp [List.getD_eq_getElem?_getD, List.getElem?_eq_getElem hnl]
  · push_neg at hn
    rw [List.getElem?_eq_none, List.getElem?_eq_none]
    · simpa using le_trans (Nat.min_le_left _ _) hn
    · simpa using hn

/-- Claim C6: `uploadObjectsUBO` truncates at the 16-body cap — the packed
count field is `min n 16` and the written slots are exactly the entries of the
first `min n 16` bodies, in list order, while an integration pass keeps all
`n` bodies. -/
theorem objects_packing_truncation (objs : List ObjectData) :
    (uploadObjectsUBO objs).1 = min objs.length 16 ∧
    (uploadObjectsUBO objs).2 = (objs.take 16).map packEntry ∧
    (uploadObjectsUBO objs).2.length = min objs.length 16 ∧
    (gravityStep objs).length = objs.length := by
  refine ⟨rfl, ?_, ?_, gravityStep_length objs⟩
  · show (List.range (min objs.length 16)).map (fun i => packEntry (objs.getD i default)) = _
    rw [range_map_getD_eq_take_map packEntry objs (min objs.length 16) (Nat.min_le_left _ _)]
    congr 1
    rcases le_total objs.length 16 with h | h
    · rw [Nat.min_eq_left h, List.take_length, List.take_of_length_le h]
    · rw [Nat.min_eq_right h]
  · simp [uploadObjectsUBO]

/-- Claim C6 instantiations from the spec text: with 20 bodies the count
reads 16 and exactly 16 slots are written; with 3 bodies (the program's
initial list) the count reads 3. -/
theorem objects_packing_examples :
    (uploadObjectsUBO (List.replicate 20 default)).1 = 16 ∧
    (uploadObjectsUBO (List.replicate 20 default)).2.length = 16 ∧
    (uploadObjectsUBO objects0).1 = 3 ∧
    (uploadObjectsUBO objects0).2.length = 3 := by
  refine ⟨?_, ?_, ?_, ?_⟩ <;> simp [uploadObjectsUBO, objects0]

/-! ### Claim C10: grid index stream safety -/

lemma length_flatMap_const {α β : Type} (l : List α) (f : α → List β) (k : ℕ)
    (h : ∀ a, (f a).length = k) : (l.flatMap f).length = l.length * k := by
  induction l with
  | nil => simp
  | cons a t ih => rw [List.flatMap_cons, List.length_append, h, ih, List.length_cons]; ring

lemma gridVertices_length (objs : List ObjectData) :
    (gridVertices objs).length = (gridSize.toNat + 1) ^ 2 := by
  have hrow : ∀ z : ℕ,
      ((List.range (gridSize.toNat + 1)).map fun x =>
        vertexAt objs (Int.ofNat x) (Int.ofNat z)).length = gridSize.toNat + 1 := by
    intro z
    rw [List.length_map, List.length_range]
  rw [gridVertices, length_flatMap_const _ _ (gridSize.toNat + 1) hrow, List.length_range, sq]

lemma gridIndices_length : gridIndices.length = 4 * gridSize.toNat ^ 2 := by
  have hinner : ∀ z : ℕ,
      ((List.range gridSize.toNat).flatMap fun x =>
        [z * (gridSize.toNat + 1) + x,
         z * (gridSize.toNat + 1) + x + 1,
         z * (gridSize.toNat + 1) + x,
         z * (gridSize.toNat + 1) + x + (gridSize.toNat + 1)]).length =
      gridSize.toNat * 4 := by
    intro z
    have h4 : ∀ x : ℕ,
        ([z * (gridSize.toNat + 1) + x,
          z * (gridSize.toNat + 1) + x + 1,
          z * (gridSize.toNat + 1) + x,
          z * (gridSize.toNat + 1) + x + (gridSize.toNat + 1)] : List ℕ).length = 4 :=
      fun x => rfl
    rw [length_flatMap_const _ _ 4 h4, List.length_range]
  rw [gridIndices, length_flatMap_const _ _ (gridSize.toNat * 4) hinner, List.length_range]
  ring

lemma mem_gridSegments (p : ℕ × ℕ) (hp : p ∈ gridSegments) :
    ∃ z x, z < gridSize.toNat ∧ x < gridSize.toNat ∧
      (p = (z * (gridSize.toNat + 1) + x, z * (gridSize.toNat + 1) + x + 1) ∨
       p = (z * (gridSize.toNat + 1) + x,
            z * (gridSize.toNat + 1) + x + (gridSize.toNat + 1))) := by
  simp only [gridSegments, List.mem_flatMap, List.mem_range, List.mem_cons,
    List.not_mem_nil, or_false] at hp
  obtain ⟨z, hz, x, hx, hp⟩ := hp
  exact ⟨z, x, hz, hx, hp⟩

/-- Claim C10: the `generateGrid` index stream has exactly `4 * gridSize ^ 2`
entries, every entry is a valid index into the `(gridSize+1)²` vertex list,
and the stream decomposes into consecutive pairs `(i, i+1)` / `(i, i+26)`,
each connecting two orthogonally adjacent vertices of the 26-column grid
(same row and adjacent columns, or same column and adjacent rows). -/
theorem grid_index_stream_safe (objs : List ObjectData) :
    gridIndices.length = 4 * gridSize.toNat ^ 2 ∧
    (gridVertices objs).length = (gridSize.toNat + 1) ^ 2 ∧
    (∀ e ∈ gridIndices, e < (gridVertices objs).length) ∧
    gridIndices = gridSegments.flatMap (fun p => [p.1, p.2]) ∧
    (∀ p ∈ gridSegments,
      (p.2 = p.1 + 1 ∧
        p.2 / (gridSize.toNat + 1) = p.1 / (gridSize.toNat + 1) ∧
        p.2 % (gridSize.toNat + 1) = p.1 % (gridSize.toNat + 1) + 1) ∨
      (p.2 = p.1 + (gridSize.toNat + 1) ∧
        p.2 / (gridSize.toNat + 1) = p.1 / (gridSize.toNat + 1) + 1 ∧
        p.2 % (gridSize.toNat + 1) = p.1 % (gridSize.toNat + 1))) := by
  have h25 : gridSize.toNat = 25 := rfl
  refine ⟨gridIndices_length, gridVertices_length objs, ?_, ?_, ?_⟩
  · intro e he
    rw [gridVertices_length]
    simp only [gridIndices, List.mem_flatMap, List.mem_range, List.mem_cons,
      List.not_mem_nil, or_false] at he
    obtain ⟨z, hz, x, hx, he⟩ := he
    rw [h25] at hz hx he ⊢
    rcases he with h | h | h | h <;> subst h <;> omega
  · rw [gridIndices, gridSegments, List.flatMap_assoc]
    apply List.flatMap_congr
    intro z _
    rw [List.flatMap_assoc]
    apply List.flatMap_congr
    intro x _
    rfl
  · intro p hp
    obtain ⟨z, x, hz, hx, hp⟩ := mem_gridSegments p hp
    rw [h25] at hz hx hp ⊢
    rcases hp with h | h <;> subst h
    · left
      refine ⟨rfl, ?_, ?_⟩ <;> simp only [] <;> omega
    · right
      refine ⟨rfl, ?_, ?_⟩ <;> simp only [] <;> omega

/-! ### Claim C7: displacement at the Schwarzschild-radius boundary -/

lemma dispContribution_at_rs (rs : ℝ) (h : 0 ≤ rs) :
    dispContribution rs rs = 2 * rs - 3e10 := by
  unfold dispContribution
  rw [if_neg (lt_irrefl rs), Real.sqrt_mul_self h]

/-- Approaching the horizon from outside, the `dist > r_s` branch of
`generateGrid` tends to `2 * sqrt 0 - 3e10 = -3e10`, not to the saturated
inside value. -/
lemma dispContribution_tendsto_outside (rs : ℝ) :
    Filter.Tendsto (fun d => dispContribution rs d)
      (nhdsWithin rs (Set.Ioi rs)) (nhds (-3e10)) := by
  have hg : Continuous fun d : ℝ => 2 * Real.sqrt (rs * (d - rs)) - 3e10 :=
    (continuous_const.mul (Real.continuous_sqrt.comp
      (continuous_const.mul (continuous_id.sub continuous_const)))).sub continuous_const
  have h1 : Filter.Tendsto (fun d : ℝ => 2 * Real.sqrt (rs * (d - rs)) - 3e10)
      (nhdsWithin rs (Set.Ioi rs)) (nhds (2 * Real.sqrt (rs * (rs - rs)) - 3e10)) :=
    (hg.tendsto rs).mono_left nhdsWithin_le_nhds
  have h2 : 2 * Real.sqrt (rs * (rs - rs)) - 3e10 = -3e10 := by
    rw [sub_self, mul_zero, Real.sqrt_zero]
    ring
  rw [h2] at h1
  have heq : ∀ᶠ d in nhdsWithin rs (Set.Ioi rs),
      (fun d : ℝ => 2 * Real.sqrt (rs * (d - rs)) - 3e10) d = dispContribution rs d := by
    filter_upwards [self_mem_nhdsWithin] with d hd
    unfold dispContribution
    rw [if_pos (show rs < d from hd)]
  exact Filter.Tendsto.congr' heq h1

/-- Claim C7 counterexample: for the first body of the program's object list
(mass `1.98892e30`, positive Schwarzschild radius), the outside-horizon
displacement formula does not tend to the saturated boundary value as the
planar distance approaches the Schwarzschild radius from above — the
contribution is discontinuous at the horizon. -/
theorem curvature_boundary_discontinuity_counterexample :
    ¬ Filter.Tendsto (fun d => dispContribution (bodyRs 1.98892e30) d)
      (nhdsWithin (bodyRs 1.98892e30) (Set.Ioi (bodyRs 1.98892e30)))
      (nhds (dispContribution (bodyRs 1.98892e30) (bodyRs 1.98892e30))) := by
  intro h
  have hrs : 0 < bodyRs 1.98892e30 := by
    unfold bodyRs G C
    norm_num
  have huniq : dispContribution (bodyRs 1.98892e30) (bodyRs 1.98892e30) = -3e10 :=
    tendsto_nhds_unique h (dispContribution_tendsto_outside _)
  rw [dispContribution_at_rs _ hrs.le] at huniq
  linarith

/-- Claim C7 amended: at `dist = r_s` the contribution equals the saturated
value `2 * r_s` minus the visual offset, but the boundary is not continuous —
the outside-horizon formula tends to `0` minus the offset as `dist → r_s⁺`,
a jump of `2 * r_s` whenever `r_s > 0`. -/
theorem curvature_boundary_value_and_limit (rs : ℝ) (h : 0 ≤ rs) :
    dispContribution rs rs = 2 * rs - 3e10 ∧
    Filter.Tendsto (fun d => dispContribution rs d)
      (nhdsWithin rs (Set.Ioi rs)) (nhds (-3e10)) :=
  ⟨dispContribution_at_rs rs h, dispContribution_tendsto_outside rs⟩

/-- Witness for the amended claim C7 at the concrete radius `1`. -/
theorem curvature_boundary_value_and_limit_witness :
    (0 : ℝ) ≤ 1 ∧
    (dispContribution 1 1 = 2 * 1 - 3e10 ∧
      Filter.Tendsto (fun d => dispContribution 1 d)
        (nhdsWithin 1 (Set.Ioi 1)) (nhds (-3e10))) :=
  ⟨by norm_num, curvature_boundary_value_and_limit 1 (by norm_num)⟩

/-! ### Claim C8: grid placement relative to the origin -/

lemma mem_gridVertices (objs : List ObjectData) (v : Vec3) :
    v ∈ gridVertices objs ↔
      ∃ x z : ℕ, x < gridSize.toNat + 1 ∧ z < gridSize.toNat + 1 ∧
        v = vertexAt objs (Int.ofNat x) (Int.ofNat z) := by
  simp only [gridVertices, List.mem_flatMap, List.mem_map, List.mem_range]
  constructor
  · rintro ⟨z, hz, x, hx, h⟩
    exact ⟨x, z, hx, hz, h.symm⟩
  · rintro ⟨x, z, hx, hz, h⟩
    exact ⟨z, hz, x, hx, h.symm⟩

lemma vertexAt_x (objs : List ObjectData) (x z : ℤ) :
    (vertexAt objs x z).x = worldCoord x := rfl

lemma vertexAt_z (objs : List ObjectData) (x z : ℤ) :
    (vertexAt objs x z).z = worldCoord z := rfl

lemma worldCoord_ofNat (k : ℕ) : worldCoord (Int.ofNat k) = ((k : ℝ) - 12) * 1e10 := by
  unfold worldCoord gridSize spacing
  have h : ((25 : ℤ) / 2) = 12 := by decide
  rw [h, Int.ofNat_eq_natCast]
  push_cast
  ring

/-- Claim C8 counterexample: the grid is not symmetric about the origin —
the corner vertex at indices `(25, 25)` sits at planar coordinates
`(1.3e11, 1.3e11)`, yet no grid vertex has `x`-coordinate `-1.3e11`
(all planar coordinates are `(k - 12) * 1e10` for `k ∈ [0, 25]`,
hence at least `-1.2e11`). -/
theorem grid_not_origin_centered_counterexample :
    ¬ ∀ v ∈ gridVertices objects0, ∃ w ∈ gridVertices objects0,
        w.x = -v.x ∧ w.z = -v.z := by
  intro h
  have hv : vertexAt objects0 (Int.ofNat 25) (Int.ofNat 25) ∈ gridVertices objects0 :=
    (mem_gridVertices _ _).mpr ⟨25, 25, by decide, by decide, rfl⟩
  obtain ⟨w, hw, hwx, _⟩ := h _ hv
  rw [vertexAt_x, worldCoord_ofNat] at hwx
  obtain ⟨x, z, _, _, hweq⟩ := (mem_gridVertices _ _).mp hw
  have hwx2 : w.x = ((x : ℝ) - 12) * 1e10 := by rw [hweq, vertexAt_x, worldCoord_ofNat]
  have hxnn : (0 : ℝ) ≤ (x : ℝ) := Nat.cast_nonneg x
  rw [hwx2] at hwx
  norm_num at hwx
  linarith

/-- Claim C8 amended: the `(gridSize+1)²` grid points lie at planar
coordinates `(k - gridSize/2) * spacing = (k - 12) * 1e10`, `k ∈ [0, 25]`,
on each axis: the lattice spans `[-1.2e11, 1.3e11]`, attains both extremes,
and is symmetric about `(spacing/2, spacing/2) = (5e9, 5e9)` (the map
`(x, z) ↦ (25-x, 25-z)` reflects `v` to a vertex at `spacing - v`), not
about the origin. -/
theorem grid_offset_center_symmetry (objs : List ObjectData) :
    (∀ v ∈ gridVertices objs, ∃ w ∈ gridVertices objs,
        w.x = spacing - v.x ∧ w.z = spacing - v.z) ∧
    (∀ v ∈ gridVertices objs,
        -1.2e11 ≤ v.x ∧ v.x ≤ 1.3e11 ∧ -1.2e11 ≤ v.z ∧ v.z ≤ 1.3e11) ∧
    (∃ v ∈ gridVertices objs, v.x = -1.2e11 ∧ v.z = -1.2e11) ∧
    (∃ v ∈ gridVertices objs, v.x = 1.3e11 ∧ v.z = 1.3e11) := by
  have h26 : gridSize.toNat + 1 = 26 := rfl
  refine ⟨?_, ?_, ?_, ?_⟩
  · intro v hv
    obtain ⟨x, z, hx, hz, hveq⟩ := (mem_gridVertices _ _).mp hv
    rw [h26] at hx hz
    refine ⟨vertexAt objs (Int.ofNat (25 - x)) (Int.ofNat (25 - z)), ?_, ?_, ?_⟩
    · exact (mem_gridVertices _ _).mpr ⟨25 - x, 25 - z, by rw [h26]; omega,
        by rw [h26]; omega, rfl⟩
    · rw [vertexAt_x, worldCoord_ofNat, hveq, vertexAt_x, worldCoord_ofNat]
      have hc : ((25 - x : ℕ) : ℝ) = 25 - (x : ℝ) := by
        push_cast [Nat.cast_sub (by omega : x ≤ 25)]
        ring
      rw [hc]
      unfold spacing
      ring
    · rw [vertexAt_z, worldCoord_ofNat, hveq, vertexAt_z, worldCoord_ofNat]
      have hc : ((25 - z : ℕ) : ℝ) = 25 - (z : ℝ) := by
        push_cast [Nat.cast_sub (by omega : z ≤ 25)]
        ring
      rw [hc]
      unfold spacing
      ring
  · intro v hv
    obtain ⟨x, z, hx, hz, hveq⟩ := (mem_gridVertices _ _).mp hv
    rw [h26] at hx hz
    have hxr : (x : ℝ) ≤ 25 := by exact_mod_cast Nat.le_of_lt_succ hx
    have hzr : (z : ℝ) ≤ 25 := by exact_mod_cast Nat.le_of_lt_succ hz
    have hx0 : (0 : ℝ) ≤ (x : ℝ) := Nat.cast_nonneg x
    have hz0 : (0 : ℝ) ≤ (z : ℝ) := Nat.cast_nonneg z
    rw [hveq, vertexAt_x, vertexAt_z, worldCoord_ofNat, worldCoord_ofNat]
    refine ⟨by nlinarith, by nlinarith, by nlinarith, by nlinarith⟩
  · refine ⟨vertexAt objs (Int.ofNat 0) (Int.ofNat 0),
      (mem_gridVertices _ _).mpr ⟨0, 0, by decide, by decide, rfl⟩, ?_, ?_⟩
    · rw [vertexAt_x, worldCoord_ofNat]; norm_num
    · rw [vertexAt_z, worldCoord_ofNat]; norm_num
  · refine ⟨vertexAt objs (Int.ofNat 25) (Int.ofNat 25),
      (mem_gridVertices _ _).mpr ⟨25, 25, by decide, by decide, rfl⟩, ?_, ?_⟩
    · rw [vertexAt_x, worldCoord_ofNat]; norm_num
    · rw [vertexAt_z, worldCoord_ofNat]; norm_num

/-! ### Claim C9: elevation clamping and non-singular camera position -/

lemma le_clampf (v lo hi : ℝ) (h : lo ≤ hi) : lo ≤ clampf v lo hi :=
  le_min (le_max_right _ _) h

lemma clampf_le (v lo hi : ℝ) : clampf v lo hi ≤ hi := min_le_right _ _

lemma eps_le_pi_sub_eps : (0.01 : ℝ) ≤ PI - 0.01 := by
  unfold PI
  linarith [Real.pi_gt_three]

lemma camInv_init : CamInv initCamera := by
  unfold CamInv initCamera PI
  refine ⟨by norm_num, by linarith [Real.pi_gt_three], by norm_num, rfl, rfl⟩

lemma processMouseMove_fields (c : Camera) (x y : ℝ) :
    ((c.processMouseMove x y).elevation = c.elevation ∨
      (c.processMouseMove x y).elevation =
        clampf (c.elevation - (y - c.lastY) * c.orbitSpeed) 0.01 (PI - 0.01)) ∧
    (c.processMouseMove x y).radius = c.radius ∧
    (c.processMouseMove x y).minRadius = c.minRadius ∧
    (c.processMouseMove x y).maxRadius = c.maxRadius := by
  unfold Camera.processMouseMove Camera.update
  split_ifs with h1 h2
  · exact ⟨Or.inl rfl, rfl, rfl, rfl⟩
  · exact ⟨Or.inr rfl, rfl, rfl, rfl⟩
  · exact ⟨Or.inl rfl, rfl, rfl, rfl⟩

lemma processScroll_fields (c : Camera) (xo yo : ℝ) :
    (c.processScroll xo yo).elevation = c.elevation ∧
    (c.processScroll xo yo).radius =
      clampf (c.radius - yo * c.zoomSpeed) c.minRadius c.maxRadius ∧
    (c.processScroll xo yo).minRadius = c.minRadius ∧
    (c.processScroll xo yo).maxRadius = c.maxRadius :=
  ⟨rfl, rfl, rfl, rfl⟩

lemma processMouseButton_fields (s : SimState) (b a : ℕ) (cx cy : ℝ) :
    (processMouseButton s b a cx cy).cam.elevation = s.cam.elevation ∧
    (processMouseButton s b a cx cy).cam.radius = s.cam.radius ∧
    (processMouseButton s b a cx cy).cam.minRadius = s.cam.minRadius ∧
    (processMouseButton s b a cx cy).cam.maxRadius = s.cam.maxRadius := by
  unfold processMouseButton
  split_ifs <;> exact ⟨rfl, rfl, rfl, rfl⟩

lemma processKey_cam (s : SimState) (k sc a m : ℕ) :
    (processKey s k sc a m).cam = s.cam := by
  unfold processKey
  split_ifs <;> rfl

lemma camInv_step (s : SimState) (e : InputEvent) (h : CamInv s.cam) :
    CamInv (stepEvent s e).cam := by
  obtain ⟨h1, h2, h3, h4, h5⟩ := h
  cases e with
  | mouseMove x y =>
    obtain ⟨he, hr, hmin, hmax⟩ := processMouseMove_fields s.cam x y
    show CamInv (s.cam.processMouseMove x y)
    rcases he with he | he <;>
      exact ⟨by rw [he]; first | exact h1 | exact le_clampf _ _ _ eps_le_pi_sub_eps,
        by rw [he]; first | exact h2 | exact clampf_le _ _ _,
        by rw [hr]; exact h3, by rw [hmin]; exact h4, by rw [hmax]; exact h5⟩
  | mouseButton b a cx cy =>
    obtain ⟨he, hr, hmin, hmax⟩ := processMouseButton_fields s b a cx cy
    show CamInv (processMouseButton s b a cx cy).cam
    exact ⟨by rw [he]; exact h1, by rw [he]; exact h2, by rw [hr]; exact h3,
      by rw [hmin]; exact h4, by rw [hmax]; exact h5⟩
  | scroll xo yo =>
    obtain ⟨he, hr, hmin, hmax⟩ := processScroll_fields s.cam xo yo
    show CamInv (s.cam.processScroll xo yo)
    refine ⟨by rw [he]; exact h1, by rw [he]; exact h2, ?_,
      by rw [hmin]; exact h4, by rw [hmax]; exact h5⟩
    rw [hr, h4, h5]
    have := le_clampf (s.cam.radius - yo * s.cam.zoomSpeed) 1e10 1e12 (by norm_num)
    linarith
  | key k sc a m =>
    rw [show (stepEvent s (.key k sc a m)).cam = (processKey s k sc a m).cam from rfl,
      processKey_cam]
    exact ⟨h1, h2, h3, h4, h5⟩

lemma camInv_run (es : List InputEvent) :
    ∀ s : SimState, CamInv s.cam → CamInv (es.foldl stepEvent s).cam := by
  induction es with
  | nil => intro s h; exact h
  | cons e t ih => intro s h; exact ih _ (camInv_step s e h)

lemma position_ne_zero (c : Camera) (h : 0 < c.radius) :
    c.position ≠ (⟨0, 0, 0⟩ : Vec3) := by
  intro hEq
  have hx : c.radius * Real.sin (clampf c.elevation 0.01 (PI - 0.01)) *
      Real.cos c.azimuth = 0 := congrArg Vec3.x hEq
  have hy : c.radius * Real.cos (clampf c.elevation 0.01 (PI - 0.01)) = 0 :=
    congrArg Vec3.y hEq
  have hz : c.radius * Real.sin (clampf c.elevation 0.01 (PI - 0.01)) *
      Real.sin c.azimuth = 0 := congrArg Vec3.z hEq
  have h1 := Real.sin_sq_add_cos_sq (clampf c.elevation 0.01 (PI - 0.01))
  have h2 := Real.sin_sq_add_cos_sq c.azimuth
  have hpyth :
      (c.radius * Real.sin (clampf c.elevation 0.01 (PI - 0.01)) * Real.cos c.azimuth) ^ 2 +
        (c.radius * Real.cos (clampf c.elevation 0.01 (PI - 0.01))) ^ 2 +
        (c.radius * Real.sin (clampf c.elevation 0.01 (PI - 0.01)) * Real.sin c.azimuth) ^ 2 =
        c.radius ^ 2 := by
    linear_combination
      (c.radius ^ 2 * Real.sin (clampf c.elevation 0.01 (PI - 0.01)) ^ 2) * h2 +
        c.radius ^ 2 * h1
  rw [hx, hy, hz] at hpyth
  nlinarith

/-- Claim C9: after any sequence of input events from the initial state, the
camera's elevation lies in `[0.01, π - 0.01]`, and `position()` never equals
the fixed target (the origin): the spherical direction has nonzero length
because the radius stays positive under scroll clamping. -/
theorem camera_elevation_clamped_position_nonsingular (es : List InputEvent) :
    0.01 ≤ (runEvents es).cam.elevation ∧
    (runEvents es).cam.elevation ≤ PI - 0.01 ∧
    0 < (runEvents es).cam.radius ∧
    (runEvents es).cam.position ≠ (⟨0, 0, 0⟩ : Vec3) := by
  have h := camInv_run es initState camInv_init
  exact ⟨h.1, h.2.1, h.2.2.1, position_ne_zero _ h.2.2.1⟩

/-! ### Integrator evaluation machinery (claims C2 and C3) -/

lemma G_pos : (0 : ℝ) < G := by unfold G; norm_num

lemma length_eval (v : Vec3) : v.length = Real.sqrt (v.x * v.x + v.y * v.y + v.z * v.z) := rfl

lemma accContribution_pos_dist (s o : ObjectData) (h : 0 < (o.pos - s.pos).length) :
    accContribution s o =
      ((G * s.mass * o.mass / ((o.pos - s.pos).length * (o.pos - s.pos).length)) / s.mass) •
        ((1 / (o.pos - s.pos).length) • (o.pos - s.pos)) := by
  simp only [accContribution]
  rw [if_pos h]

lemma accContribution_x_pos (s o : ObjectData) (hs : 0 < s.mass) (ho : 0 < o.mass)
    (hx : s.pos.x < o.pos.x) : 0 < (accContribution s o).x := by
  have hdx : 0 < (o.pos - s.pos).x := by rw [Vec3.sub_x]; linarith
  have hsq : (o.pos - s.pos).x * (o.pos - s.pos).x ≤
      (o.pos - s.pos).x * (o.pos - s.pos).x + (o.pos - s.pos).y * (o.pos - s.pos).y +
        (o.pos - s.pos).z * (o.pos - s.pos).z := by
    nlinarith [mul_self_nonneg (o.pos - s.pos).y, mul_self_nonneg (o.pos - s.pos).z]
  have hlen : (o.pos - s.pos).x ≤ (o.pos - s.pos).length := by
    rw [length_eval]
    calc (o.pos - s.pos).x
        = Real.sqrt ((o.pos - s.pos).x * (o.pos - s.pos).x) :=
          (Real.sqrt_mul_self hdx.le).symm
      _ ≤ _ := Real.sqrt_le_sqrt hsq
  have hlpos : 0 < (o.pos - s.pos).length := lt_of_lt_of_le hdx hlen
  rw [accContribution_pos_dist s o hlpos]
  simp only [Vec3.smul_x]
  have hscal : 0 < (G * s.mass * o.mass /
      ((o.pos - s.pos).length * (o.pos - s.pos).length)) / s.mass :=
    div_pos (div_pos (mul_pos (mul_pos G_pos hs) ho) (mul_pos hlpos hlpos)) hs
  exact mul_pos hscal (mul_pos (by positivity) hdx)

lemma accContribution_x_zero (s o : ObjectData) (hx : o.pos.x = s.pos.x) :
    (accContribution s o).x = 0 := by
  by_cases h : 0 < (o.pos - s.pos).length
  · rw [accContribution_pos_dist s o h]
    simp only [Vec3.smul_x, Vec3.sub_x, hx, sub_self, mul_zero]
  · simp only [accContribution]
    rw [if_neg h]
    rfl

lemma applyAcc_velocity (o : ObjectData) (acc : Vec3) :
    (applyAcc o acc).velocity = o.velocity + acc := rfl

lemma applyAcc_mass (o : ObjectData) (acc : Vec3) : (applyAcc o acc).mass = o.mass := rfl

lemma applyAcc_pos_x (o : ObjectData) (acc : Vec3) :
    (applyAcc o acc).pos.x = o.pos.x + (o.velocity + acc).x := rfl

lemma applyAcc_posRadius_x (o : ObjectData) (acc : Vec3) :
    (applyAcc o acc).posRadius.x = o.posRadius.x + (o.velocity + acc).x := rfl

lemma stepAt2_0 (a b : ObjectData) :
    stepAt [a, b] 0 = [applyAcc a (0 + accContribution a b), b] := rfl

lemma stepAt2_1 (a b : ObjectData) :
    stepAt [a, b] 1 = [a, applyAcc b (0 + accContribution b a)] := rfl

lemma gravityStep2 (a b : ObjectData) :
    gravityStep [a, b] = stepAt (stepAt [a, b] 0) 1 := rfl

lemma stepAt3_0 (a b c : ObjectData) :
    stepAt [a, b, c] 0 =
      [applyAcc a (0 + accContribution a b + accContribution a c), b, c] := rfl

lemma stepAt3_1 (a b c : ObjectData) :
    stepAt [a, b, c] 1 =
      [a, applyAcc b (0 + accContribution b a + accContribution b c), c] := rfl

lemma stepAt3_2 (a b c : ObjectData) :
    stepAt [a, b, c] 2 =
      [a, b, applyAcc c (0 + accContribution c a + accContribution c b)] := rfl

lemma gravityStep3 (a b c : ObjectData) :
    gravityStep [a, b, c] = stepAt (stepAt (stepAt [a, b, c] 0) 1) 2 := rfl

lemma applyAcc_pos_y (o : ObjectData) (acc : Vec3) :
    (applyAcc o acc).pos.y = o.pos.y + (o.velocity + acc).y := rfl

lemma applyAcc_pos_z (o : ObjectData) (acc : Vec3) :
    (applyAcc o acc).pos.z = o.pos.z + (o.velocity + acc).z := rfl

/-! ### Claim C2: two equal masses at rest, symmetric about the origin -/

/-- Exact result of one integration pass over the symmetric rest pair:
because the loop updates bodies in place, the second body reacts to the first
body's already-updated position `d - G m / (4 d²)`, so the two speeds differ. -/
lemma symmetric_pair_after_step (d m : ℝ) (hd : 0 < d) (hm : 0 < m)
    (hsep : G * m / (4 * d ^ 2) < 2 * d) :
    ((gravityStep [xBody d m, xBody (-d) m]).getD 0 default).velocity.x =
        -(G * m / (4 * d ^ 2)) ∧
    ((gravityStep [xBody d m, xBody (-d) m]).getD 0 default).velocity.y = 0 ∧
    ((gravityStep [xBody d m, xBody (-d) m]).getD 0 default).velocity.z = 0 ∧
    ((gravityStep [xBody d m, xBody (-d) m]).getD 1 default).velocity.x =
        G * m / (2 * d - G * m / (4 * d ^ 2)) ^ 2 ∧
    ((gravityStep [xBody d m, xBody (-d) m]).getD 1 default).velocity.y = 0 ∧
    ((gravityStep [xBody d m, xBody (-d) m]).getD 1 default).velocity.z = 0 ∧
    ((gravityStep [xBody d m, xBody (-d) m]).getD 0 default).posRadius.x =
        d - G * m / (4 * d ^ 2) ∧
    ((gravityStep [xBody d m, xBody (-d) m]).getD 1 default).posRadius.x =
        -d + G * m / (2 * d - G * m / (4 * d ^ 2)) ^ 2 := by
  have hd' : d ≠ 0 := ne_of_gt hd
  have hm' : m ≠ 0 := ne_of_gt hm
  have h2dA : 0 < 2 * d - G * m / (4 * d ^ 2) := by linarith
  have ht' : 2 * d - G * m / (4 * d ^ 2) ≠ 0 := ne_of_gt h2dA
  have hlen1 : ((xBody (-d) m).pos - (xBody d m).pos).length = 2 * d := by
    rw [length_eval]
    rw [show ((xBody (-d) m).pos - (xBody d m).pos).x *
          ((xBody (-d) m).pos - (xBody d m).pos).x +
        ((xBody (-d) m).pos - (xBody d m).pos).y *
          ((xBody (-d) m).pos - (xBody d m).pos).y +
        ((xBody (-d) m).pos - (xBody d m).pos).z *
          ((xBody (-d) m).pos - (xBody d m).pos).z = 2 * d * (2 * d) from by
      show (-d - d) * (-d - d) + (0 - 0) * (0 - 0) + (0 - 0) * (0 - 0) = 2 * d * (2 * d)
      ring]
    exact Real.sqrt_mul_self (by linarith)
  have hlen1pos : 0 < ((xBody (-d) m).pos - (xBody d m).pos).length := by
    rw [hlen1]; linarith
  have hc1x : (accContribution (xBody d m) (xBody (-d) m)).x = -(G * m / (4 * d ^ 2)) := by
    rw [accContribution_pos_dist _ _ hlen1pos]
    simp only [Vec3.smul_x]
    rw [hlen1]
    show G * m * m / (2 * d * (2 * d)) / m * (1 / (2 * d) * (-d - d)) =
      -(G * m / (4 * d ^ 2))
    field_simp
    ring
  have hc1y : (accContribution (xBody d m) (xBody (-d) m)).y = 0 := by
    rw [accContribution_pos_dist _ _ hlen1pos]
    simp only [Vec3.smul_y]
    rw [show ((xBody (-d) m).pos - (xBody d m).pos).y = 0 from by
      show (0 : ℝ) - 0 = 0; ring]
    ring
  have hc1z : (accContribution (xBody d m) (xBody (-d) m)).z = 0 := by
    rw [accContribution_pos_dist _ _ hlen1pos]
    simp only [Vec3.smul_z]
    rw [show ((xBody (-d) m).pos - (xBody d m).pos).z = 0 from by
      show (0 : ℝ) - 0 = 0; ring]
    ring
  have hA1px : (applyAcc (xBody d m)
      (0 + accContribution (xBody d m) (xBody (-d) m))).pos.x =
      d - G * m / (4 * d ^ 2) := by
    rw [applyAcc_pos_x]
    simp only [Vec3.add_x, Vec3.zero_x]
    rw [show (xBody d m).pos.x = d from rfl, show (xBody d m).velocity.x = 0 from rfl, hc1x]
    ring
  have hA1py : (applyAcc (xBody d m)
      (0 + accContribution (xBody d m) (xBody (-d) m))).pos.y = 0 := by
    rw [applyAcc_pos_y]
    simp only [Vec3.add_y, Vec3.zero_y]
    rw [show (xBody d m).pos.y = 0 from rfl, show (xBody d m).velocity.y = 0 from rfl, hc1y]
    ring
  have hA1pz : (applyAcc (xBody d m)
      (0 + accContribution (xBody d m) (xBody (-d) m))).pos.z = 0 := by
    rw [applyAcc_pos_z]
    simp only [Vec3.add_z, Vec3.zero_z]
    rw [show (xBody d m).pos.z = 0 from rfl, show (xBody d m).velocity.z = 0 from rfl, hc1z]
    ring
  have hdx2 : ((applyAcc (xBody d m)
      (0 + accContribution (xBody d m) (xBody (-d) m))).pos - (xBody (-d) m).pos).x =
      2 * d - G * m / (4 * d ^ 2) := by
    rw [Vec3.sub_x, hA1px, show (xBody (-d) m).pos.x = -d from rfl]
    ring
  have hdy2 : ((applyAcc (xBody d m)
      (0 + accContribution (xBody d m) (xBody (-d) m))).pos - (xBody (-d) m).pos).y = 0 := by
    rw [Vec3.sub_y, hA1py, show (xBody (-d) m).pos.y = 0 from rfl]
    ring
  have hdz2 : ((applyAcc (xBody d m)
      (0 + accContribution (xBody d m) (xBody (-d) m))).pos - (xBody (-d) m).pos).z = 0 := by
    rw [Vec3.sub_z, hA1pz, show (xBody (-d) m).pos.z = 0 from rfl]
    ring
  have hlen2 : ((applyAcc (xBody d m)
      (0 + accContribution (xBody d m) (xBody (-d) m))).pos - (xBody (-d) m).pos).length =
      2 * d - G * m / (4 * d ^ 2) := by
    rw [length_eval, hdx2, hdy2, hdz2]
    rw [show (2 * d - G * m / (4 * d ^ 2)) * (2 * d - G * m / (4 * d ^ 2)) + 0 * 0 + 0 * 0 =
      (2 * d - G * m / (4 * d ^ 2)) * (2 * d - G * m / (4 * d ^ 2)) from by ring]
    exact Real.sqrt_mul_self h2dA.le
  have hlen2pos : 0 < ((applyAcc (xBody d m)
      (0 + accContribution (xBody d m) (xBody (-d) m))).pos - (xBody (-d) m).pos).length := by
    rw [hlen2]; exact h2dA
  have hc2x : (accContribution (xBody (-d) m) (applyAcc (xBody d m)
      (0 + accContribution (xBody d m) (xBody (-d) m)))).x =
      G * m / (2 * d - G * m / (4 * d ^ 2)) ^ 2 := by
    set t := 2 * d - G * m / (4 * d ^ 2) with htdef
    rw [accContribution_pos_dist _ _ hlen2pos]
    simp only [Vec3.smul_x]
    rw [hlen2, hdx2]
    rw [show (xBody (-d) m).mass = m from rfl,
      show (applyAcc (xBody d m)
        (0 + accContribution (xBody d m) (xBody (-d) m))).mass = m from rfl]
    rw [one_div, inv_mul_cancel₀ ht', mul_one, sq]
    field_simp
    ring
  have hc2y : (accContribution (xBody (-d) m) (applyAcc (xBody d m)
      (0 + accContribution (xBody d m) (xBody (-d) m)))).y = 0 := by
    rw [accContribution_pos_dist _ _ hlen2pos]
    simp only [Vec3.smul_y]
    rw [hdy2]
    ring
  have hc2z : (accContribution (xBody (-d) m) (applyAcc (xBody d m)
      (0 + accContribution (xBody d m) (xBody (-d) m)))).z = 0 := by
    rw [accContribution_pos_dist _ _ hlen2pos]
    simp only [Vec3.smul_z]
    rw [hdz2]
    ring
  rw [gravityStep2, stepAt2_0, stepAt2_1]
  simp only [List.getD_cons_zero, List.getD_cons_succ]
  refine ⟨?_, ?_, ?_, ?_, ?_, ?_, ?_, ?_⟩
  · rw [applyAcc_velocity]
    simp only [Vec3.add_x, Vec3.zero_x]
    rw [show (xBody d m).velocity.x = 0 from rfl, hc1x]
    ring
  · rw [applyAcc_velocity]
    simp only [Vec3.add_y, Vec3.zero_y]
    rw [show (xBody d m).velocity.y = 0 from rfl, hc1y]
    ring
  · rw [applyAcc_velocity]
    simp only [Vec3.add_z, Vec3.zero_z]
    rw [show (xBody d m).velocity.z = 0 from rfl, hc1z]
    ring
  · rw [applyAcc_velocity]
    simp only [Vec3.add_x, Vec3.zero_x]
    rw [show (xBody (-d) m).velocity.x = 0 from rfl, hc2x]
    ring
  · rw [applyAcc_velocity]
    simp only [Vec3.add_y, Vec3.zero_y]
    rw [show (xBody (-d) m).velocity.y = 0 from rfl, hc2y]
    ring
  · rw [applyAcc_velocity]
    simp only [Vec3.add_z, Vec3.zero_z]
    rw [show (xBody (-d) m).velocity.z = 0 from rfl, hc2z]
    ring
  · rw [applyAcc_posRadius_x]
    simp only [Vec3.add_x, Vec3.zero_x]
    rw [show (xBody d m).posRadius.x = d from rfl,
      show (xBody d m).velocity.x = 0 from rfl, hc1x]
    ring
  · rw [applyAcc_posRadius_x]
    simp only [Vec3.add_x, Vec3.zero_x]
    rw [show (xBody (-d) m).posRadius.x = -d from rfl,
      show (xBody (-d) m).velocity.x = 0 from rfl, hc2x]
    ring

/-- Claim C2 counterexample: for two bodies of mass `1` at rest at `(±1, 0, 0)`
(a symmetric closed system), the velocities after one integration step are not
equal in magnitude and opposite in direction — their sum is nonzero, because
the loop updates the bodies in place sequentially. -/
theorem equal_opposite_velocities_counterexample :
    ((gravityStep [xBody 1 1, xBody (-1) 1]).getD 0 default).velocity.x +
      ((gravityStep [xBody 1 1, xBody (-1) 1]).getD 1 default).velocity.x ≠ 0 := by
  obtain ⟨h0x, _, _, h1x, _, _, _, _⟩ :=
    symmetric_pair_after_step 1 1 (by norm_num) (by norm_num) (by norm_num [G])
  rw [h0x, h1x]
  norm_num [G]

/-- Claim C2 amended: after one integration step from the symmetric rest
configuration, both velocities lie along the axis joining the bodies and
point toward each other, but the body updated second is strictly faster
(the in-place loop lets it react to the first body's already-updated
position), so the total momentum is strictly positive (nonzero) and the
center of mass drifts toward the first body instead of staying at rest. -/
theorem symmetric_rest_pair_momentum_not_conserved (d m : ℝ) (hd : 0 < d) (hm : 0 < m)
    (hsep : G * m / (4 * d ^ 2) < 2 * d) :
    ((gravityStep [xBody d m, xBody (-d) m]).getD 0 default).velocity.x < 0 ∧
    0 < ((gravityStep [xBody d m, xBody (-d) m]).getD 1 default).velocity.x ∧
    ((gravityStep [xBody d m, xBody (-d) m]).getD 0 default).velocity.y = 0 ∧
    ((gravityStep [xBody d m, xBody (-d) m]).getD 0 default).velocity.z = 0 ∧
    ((gravityStep [xBody d m, xBody (-d) m]).getD 1 default).velocity.y = 0 ∧
    ((gravityStep [xBody d m, xBody (-d) m]).getD 1 default).velocity.z = 0 ∧
    -((gravityStep [xBody d m, xBody (-d) m]).getD 0 default).velocity.x <
      ((gravityStep [xBody d m, xBody (-d) m]).getD 1 default).velocity.x ∧
    0 < ((gravityStep [xBody d m, xBody (-d) m]).getD 0 default).velocity.x +
      ((gravityStep [xBody d m, xBody (-d) m]).getD 1 default).velocity.x ∧
    0 < ((gravityStep [xBody d m, xBody (-d) m]).getD 0 default).posRadius.x +
      ((gravityStep [xBody d m, xBody (-d) m]).getD 1 default).posRadius.x := by
  obtain ⟨h0x, h0y, h0z, h1x, h1y, h1z, hp0, hp1⟩ :=
    symmetric_pair_after_step d m hd hm hsep
  have hA : 0 < G * m / (4 * d ^ 2) := div_pos (mul_pos G_pos hm) (by positivity)
  have h2dA : 0 < 2 * d - G * m / (4 * d ^ 2) := by linarith
  have hB : 0 < G * m / (2 * d - G * m / (4 * d ^ 2)) ^ 2 :=
    div_pos (mul_pos G_pos hm) (by positivity)
  have hlt : (2 * d - G * m / (4 * d ^ 2)) ^ 2 < 4 * d ^ 2 := by
    nlinarith [mul_pos hA h2dA, mul_pos hA hd]
  have hAB : G * m / (4 * d ^ 2) < G * m / (2 * d - G * m / (4 * d ^ 2)) ^ 2 := by
    have h := div_lt_div_of_pos_left (mul_pos G_pos hm)
      (show (0 : ℝ) < (2 * d - G * m / (4 * d ^ 2)) ^ 2 by positivity) hlt
    linarith
  refine ⟨by rw [h0x]; linarith, by rw [h1x]; exact hB, h0y, h0z, h1y, h1z, ?_, ?_, ?_⟩
  · rw [h0x, h1x]
    linarith
  · rw [h0x, h1x]
    linarith
  · rw [hp0, hp1]
    linarith

/-- Witness for the amended claim C2 at the concrete input `d = 1`, `m = 1`. -/
theorem symmetric_rest_pair_momentum_not_conserved_witness :
    ((0 : ℝ) < 1 ∧ G * 1 / (4 * 1 ^ 2) < 2 * 1) ∧
    (((gravityStep [xBody 1 1, xBody (-1) 1]).getD 0 default).velocity.x < 0 ∧
     0 < ((gravityStep [xBody 1 1, xBody (-1) 1]).getD 1 default).velocity.x ∧
     ((gravityStep [xBody 1 1, xBody (-1) 1]).getD 0 default).velocity.y = 0 ∧
     ((gravityStep [xBody 1 1, xBody (-1) 1]).getD 0 default).velocity.z = 0 ∧
     ((gravityStep [xBody 1 1, xBody (-1) 1]).getD 1 default).velocity.y = 0 ∧
     ((gravityStep [xBody 1 1, xBody (-1) 1]).getD 1 default).velocity.z = 0 ∧
     -((gravityStep [xBody 1 1, xBody (-1) 1]).getD 0 default).velocity.x <
       ((gravityStep [xBody 1 1, xBody (-1) 1]).getD 1 default).velocity.x ∧
     0 < ((gravityStep [xBody 1 1, xBody (-1) 1]).getD 0 default).velocity.x +
       ((gravityStep [xBody 1 1, xBody (-1) 1]).getD 1 default).velocity.x ∧
     0 < ((gravityStep [xBody 1 1, xBody (-1) 1]).getD 0 default).posRadius.x +
       ((gravityStep [xBody 1 1, xBody (-1) 1]).getD 1 default).posRadius.x) :=
  ⟨⟨by norm_num, by norm_num [G]⟩,
    symmetric_rest_pair_momentum_not_conserved 1 1 (by norm_num) (by norm_num)
      (by norm_num [G])⟩

/-! ### Claim C3: the central attractor under integration -/

/-- One integration pass over the program's initial object list gives the
central attractor a strictly positive `x`-velocity and moves it off the
origin: nothing in the loop pins the distinguished body. -/
lemma attractor_moves :
    0 < ((gravityStep objects0).getD 2 default).velocity.x ∧
    0 < ((gravityStep objects0).getD 2 default).posRadius.x := by
  have hobj : objects0 = [body0, body1, attractor] := rfl
  rw [hobj, gravityStep3, stepAt3_0, stepAt3_1, stepAt3_2]
  simp only [List.getD_cons_zero, List.getD_cons_succ]
  set A1 := applyAcc body0
    (0 + accContribution body0 body1 + accContribution body0 attractor) with hA1def
  set B1 := applyAcc body1
    (0 + accContribution body1 A1 + accContribution body1 attractor) with hB1def
  -- the contribution of the attractor on body0 (exact rational value)
  have hlen02 : (attractor.pos - body0.pos).length = 4e11 := by
    rw [length_eval]
    rw [show (attractor.pos - body0.pos).x * (attractor.pos - body0.pos).x +
        (attractor.pos - body0.pos).y * (attractor.pos - body0.pos).y +
        (attractor.pos - body0.pos).z * (attractor.pos - body0.pos).z =
        4e11 * 4e11 from by
      show ((0 : ℝ) - 4e11) * ((0 : ℝ) - 4e11) + ((0 : ℝ) - 0) * ((0 : ℝ) - 0) +
        ((0 : ℝ) - 0) * ((0 : ℝ) - 0) = 4e11 * 4e11
      norm_num]
    exact Real.sqrt_mul_self (by norm_num)
  have hlen02pos : 0 < (attractor.pos - body0.pos).length := by rw [hlen02]; norm_num
  have hc02x : -3600 ≤ (accContribution body0 attractor).x := by
    rw [accContribution_pos_dist _ _ hlen02pos]
    simp only [Vec3.smul_x]
    rw [hlen02]
    show -3600 ≤ 6.6743e-11 * 1.98892e30 * 8.54e36 / (4e11 * 4e11) / 1.98892e30 *
      (1 / 4e11 * ((0 : ℝ) - 4e11))
    norm_num
  -- the contribution of body1 on body0 (bounded via the diagonal distance)
  have hlen01 : (body1.pos - body0.pos).length = Real.sqrt 3.2e23 := by
    rw [length_eval]
    rw [show (body1.pos - body0.pos).x * (body1.pos - body0.pos).x +
        (body1.pos - body0.pos).y * (body1.pos - body0.pos).y +
        (body1.pos - body0.pos).z * (body1.pos - body0.pos).z = 3.2e23 from by
      show ((0 : ℝ) - 4e11) * ((0 : ℝ) - 4e11) + ((0 : ℝ) - 0) * ((0 : ℝ) - 0) +
        ((4e11 : ℝ) - 0) * ((4e11 : ℝ) - 0) = 3.2e23
      norm_num]
  have hs5 : (5e11 : ℝ) ≤ Real.sqrt 3.2e23 :=
    (Real.le_sqrt (by norm_num) (by norm_num)).mpr (by norm_num)
  have hspos : (0 : ℝ) < Real.sqrt 3.2e23 := lt_of_lt_of_le (by norm_num) hs5
  have hlen01pos : 0 < (body1.pos - body0.pos).length := by rw [hlen01]; exact hspos
  have hc01x : -1 ≤ (accContribution body0 body1).x := by
    rw [accContribution_pos_dist _ _ hlen01pos]
    simp only [Vec3.smul_x]
    rw [hlen01, Real.mul_self_sqrt (by norm_num : (0 : ℝ) ≤ 3.2e23)]
    show -1 ≤ 6.6743e-11 * 1.98892e30 * 1.98892e30 / 3.2e23 / 1.98892e30 *
      (1 / Real.sqrt 3.2e23 * ((0 : ℝ) - 4e11))
    have hu1 : 1 / Real.sqrt 3.2e23 ≤ 2e-12 := by
      rw [div_le_iff₀ hspos]
      nlinarith [hs5]
    have hu0 : 0 < 1 / Real.sqrt 3.2e23 := by positivity
    nlinarith [hu1, hu0]
  -- body0 after its update still lies at strictly positive x
  have hA1px : 0 < A1.pos.x := by
    rw [hA1def, applyAcc_pos_x]
    simp only [Vec3.add_x, Vec3.zero_x]
    rw [show body0.pos.x = 4e11 from rfl, show body0.velocity.x = 0 from rfl]
    linarith [hc01x, hc02x]
  have hmA1 : 0 < A1.mass := by
    rw [hA1def, applyAcc_mass]
    show (0 : ℝ) < 1.98892e30
    norm_num
  have hmb1 : 0 < body1.mass := by
    show (0 : ℝ) < 1.98892e30
    norm_num
  -- body1 after its update lies at strictly positive x as well
  have hcb1A1 : 0 < (accContribution body1 A1).x :=
    accContribution_x_pos body1 A1 hmb1 hmA1
      (by rw [show body1.pos.x = 0 from rfl]; exact hA1px)
  have hcb1att : (accContribution body1 attractor).x = 0 :=
    accContribution_x_zero body1 attractor (show attractor.pos.x = body1.pos.x from rfl)
  have hB1px : 0 < B1.pos.x := by
    rw [hB1def, applyAcc_pos_x]
    simp only [Vec3.add_x, Vec3.zero_x]
    rw [show body1.pos.x = 0 from rfl, show body1.velocity.x = 0 from rfl, hcb1att]
    linarith [hcb1A1]
  have hmB1 : 0 < B1.mass := by
    rw [hB1def, applyAcc_mass]
    show (0 : ℝ) < 1.98892e30
    norm_num
  have hmatt : 0 < attractor.mass := by
    show (0 : ℝ) < 8.54e36
    norm_num
  -- both bodies now pull the attractor toward positive x
  have hca : 0 < (accContribution attractor A1).x :=
    accContribution_x_pos attractor A1 hmatt hmA1
      (by rw [show attractor.pos.x = 0 from rfl]; exact hA1px)
  have hcb : 0 < (accContribution attractor B1).x :=
    accContribution_x_pos attractor B1 hmatt hmB1
      (by rw [show attractor.pos.x = 0 from rfl]; exact hB1px)
  constructor
  · rw [applyAcc_velocity]
    simp only [Vec3.add_x, Vec3.zero_x]
    rw [show attractor.velocity.x = 0 from rfl]
    linarith [hca, hcb]
  · rw [applyAcc_posRadius_x]
    simp only [Vec3.add_x, Vec3.zero_x]
    rw [show attractor.posRadius.x = 0 from rfl, show attractor.velocity.x = 0 from rfl]
    linarith [hca, hcb]

/-- Claim C3 counterexample: after a single integration step (gravity flag
set) from the program's initial configuration, the central attractor has a
nonzero velocity and its `x`-position is no longer `0` — the integrator does
not keep the distinguished body fixed at the origin. -/
theorem attractor_fixed_counterexample :
    ((gravityStep objects0).getD 2 default).velocity ≠ (0 : Vec3) ∧
    ((gravityStep objects0).getD 2 default).posRadius.x ≠ 0 := by
  obtain ⟨hv, hp⟩ := attractor_moves
  refine ⟨?_, ne_of_gt hp⟩
  intro h
  rw [h] at hv
  simp only [Vec3.zero_x] at hv
  exact lt_irrefl 0 hv

/-- Claim C3 amended: the attractor stays at the origin with zero velocity
only while the gravity flag is off (the frame loop then leaves the bodies
untouched); once the flag is set, the integrator treats the attractor like
any other body, and one step from the initial configuration already gives it
a strictly positive `x`-velocity and `x`-position. -/
theorem attractor_fixed_only_without_gravity :
    frameBodies false objects0 = objects0 ∧
    ((frameBodies false objects0).getD 2 default).posRadius.x = 0 ∧
    ((frameBodies false objects0).getD 2 default).posRadius.y = 0 ∧
    ((frameBodies false objects0).getD 2 default).posRadius.z = 0 ∧
    ((frameBodies false objects0).getD 2 default).velocity = (0 : Vec3) ∧
    0 < ((frameBodies true objects0).getD 2 default).velocity.x ∧
    0 < ((frameBodies true objects0).getD 2 default).posRadius.x := by
  refine ⟨rfl, rfl, rfl, rfl, rfl, ?_, ?_⟩
  · show 0 < ((gravityStep objects0).getD 2 default).velocity.x
    exact attractor_moves.1
  · show 0 < ((gravityStep objects0).getD 2 default).posRadius.x
    exact attractor_moves.2

end

end BlackHole
